import Mathlib

/-!
Verification of the data-preparation and grouping pipeline of
`scr/analyzer.py` (function `analyze_data` and its helpers).

The pandas DataFrame is embedded as a list of rows over a list of column
names.  Cell values are strings, integers (finiteness is all that matters
for the numeric checks, so finite floats are represented by `Int`), or the
non-finite floats NaN / +inf / -inf.  Elementwise pandas equality (`==`,
where NaN compares unequal to everything including itself) is `pdEq`;
`Series.unique()` (first-occurrence order, NaN deduplicated) is `unique`.

Collaborator modules (`data_processing`, `distribution_plots`, `box_plots`,
`correlation_plots`, `utils`) are not part of the analyzed source; their
calls are modelled as parameters of an `Env` record returning `Except`
values, per the external-interface contract of the specification.
-/

inductive Value where
  | s : String → Value
  | i : Int → Value
  | nan : Value
  | inf : Value
  | ninf : Value
  deriving DecidableEq, Repr

def Value.isNaN : Value → Bool
  | .nan => true
  | _ => false

/-- A cell counts as numeric when it is a number or a non-finite float;
string cells make the enclosing column a pandas object column. -/
def Value.isNumericV : Value → Bool
  | .s _ => false
  | _ => true

/-- `np.isfinite`: true only for finite numbers. -/
def Value.isFiniteV : Value → Bool
  | .i _ => true
  | _ => false

/-- Rendering of a group value inside an output-directory name
(Python f-string formatting). -/
def Value.toName : Value → String
  | .s str => str
  | .i n => toString n
  | .nan => "nan"
  | .inf => "inf"
  | .ninf => "-inf"

abbrev Row := List Value

structure DF where
  cols : List String
  rows : List Row
  deriving DecidableEq, Repr

/-- Cell of `row` in column `c` (rows are positional, aligned with `cols`). -/
def cellAt (cols : List String) (row : Row) (c : String) : Value :=
  match cols.findIdx? (fun x => x == c) with
  | some idx => row.getD idx Value.nan
  | none => Value.nan

/-- `df[c]` as a list of values (the caller checks column existence). -/
def colVals (df : DF) (c : String) : List Value :=
  df.rows.map (fun r => cellAt df.cols r c)

/-- `df['SN'].isin(['LSL', 'USL'])`, evaluated on one row
(analyzer.py line 140). -/
def rowIsSpec (cols : List String) (row : Row) : Bool :=
  cellAt cols row "SN" == Value.s "LSL" || cellAt cols row "SN" == Value.s "USL"

/-- `spec_data = df[spec_mask]` (analyzer.py line 141). -/
def spec_data (df : DF) : DF :=
  ⟨df.cols, df.rows.filter (fun r => rowIsSpec df.cols r)⟩

/-- `actual_data = df[~spec_mask]` (analyzer.py line 142). -/
def actual_data (df : DF) : DF :=
  ⟨df.cols, df.rows.filter (fun r => !rowIsSpec df.cols r)⟩

/-- First-occurrence deduplication with an accumulator of already seen
values; structural equality identifies the NaNs with each other, exactly
as `pandas.unique` deduplicates NaN. -/
def uniqueAux (seen : List Value) : List Value → List Value
  | [] => []
  | v :: vs => if v ∈ seen then uniqueAux seen vs else v :: uniqueAux (v :: seen) vs

/-- `Series.unique()`: distinct values in first-occurrence order. -/
def unique (vs : List Value) : List Value := uniqueAux [] vs

/-- `groups = actual_data[group_by].unique()` (analyzer.py line 143). -/
def groups (df : DF) (gb : String) : List Value :=
  unique (colVals (actual_data df) gb)

/-- Elementwise pandas equality: a NaN operand makes the comparison false. -/
def pdEq (v w : Value) : Bool :=
  if v.isNaN || w.isNaN then false else v == w

/-- `actual_data[actual_data[group_by] == group_name]`
(analyzer.py line 153). -/
def group_rows (df : DF) (gb : String) (g : Value) : List Row :=
  (actual_data df).rows.filter (fun r => pdEq (cellAt df.cols r gb) g)

/-- `pd.concat([spec_data, actual_data[actual_data[group_by] == group_name]])`
(analyzer.py lines 151-154). -/
def group_data (df : DF) (gb : String) (g : Value) : DF :=
  ⟨df.cols, (spec_data df).rows ++ group_rows df gb g⟩

/-- `df.select_dtypes(include=[np.number]).columns` (analyzer.py line 98):
the columns all of whose cells are numeric. -/
def numericColumns (df : DF) : List String :=
  df.cols.filter (fun c => (colVals df c).all Value.isNumericV)

/-- `(~np.isfinite(df[col])).sum()` (analyzer.py lines 104, 107). -/
def invalidCount (df : DF) (c : String) : Nat :=
  ((colVals df c).filter (fun v => !v.isFiniteV)).length

/-- Structured diagnostics; the pipeline's semantically relevant print
statements are modelled as these log events. -/
inductive LogEntry where
  | invalidValues : String → Nat → LogEntry
  | noInvalid : LogEntry
  | warnGroupMissing : Option String → LogEntry
  deriving DecidableEq, Repr

/-- The per-column messages of the check loop, analyzer.py lines 103-107:
one entry per numeric column with a positive count of non-finite values,
in column order. -/
def invalidEntries (df : DF) : List LogEntry :=
  (numericColumns df).filterMap (fun c =>
    if 0 < invalidCount df c then some (LogEntry.invalidValues c (invalidCount df c)) else none)

/-- The invalid-value diagnostics of analyzer.py lines 102-110: the
per-column messages, or the no-invalid message when every numeric column
was clean (`has_invalid_data` stayed false). -/
def checkInvalid (df : DF) : List LogEntry :=
  if (invalidEntries df).isEmpty then [LogEntry.noInvalid] else invalidEntries df

inductive Err where
  | keyError : String → Err
  | schemaError : String → Err
  | configError : String → Err
  | collabError : String → Err
  deriving DecidableEq, Repr

/-- Run state: matplotlib interactive mode, the chronological list of
`os.makedirs` calls, and the diagnostic log. -/
structure RunState where
  interactive : Bool
  dirs : List String
  log : List LogEntry
  deriving DecidableEq, Repr

/-- State-passing computations that may raise; on an exception the state
reached so far is kept (Python globals survive a raise). -/
def M (α : Type) : Type := RunState → Except Err α × RunState

def pureM {α : Type} (a : α) : M α := fun st => (Except.ok a, st)

def bindM {α β : Type} (m : M α) (f : α → M β) : M β := fun st =>
  match m st with
  | (Except.ok a, st2) => f a st2
  | (Except.error e, st2) => (Except.error e, st2)

def liftE {α : Type} (x : Except Err α) : M α := fun st => (x, st)

def throwM {α : Type} (e : Err) : M α := fun st => (Except.error e, st)

def emitAll (es : List LogEntry) : M Unit := fun st =>
  (Except.ok (), { st with log := st.log ++ es })

def emit (e : LogEntry) : M Unit := emitAll [e]

/-- `os.makedirs(d, exist_ok=True)`, recorded chronologically. -/
def mkdir (d : String) : M Unit := fun st =>
  (Except.ok (), { st with dirs := st.dirs ++ [d] })

/-- `plt.ioff()` / `plt.ion()`. -/
def setInteractive (b : Bool) : M Unit := fun st =>
  (Except.ok (), { st with interactive := b })

/-- Python `try ... finally`: the cleanup runs on both exits; an exception
from the body survives unless the cleanup itself raises. -/
def tryFinallyM {α : Type} (body : M α) (cleanup : M Unit) : M α := fun st =>
  match body st with
  | (r, st2) =>
    match cleanup st2 with
    | (Except.ok _, st3) => (r, st3)
    | (Except.error e, st3) => (Except.error e, st3)

def forEach {α : Type} : List α → (α → M Unit) → M Unit
  | [], _ => pureM ()
  | x :: xs, f => bindM (f x) (fun _ => forEach xs f)

/-- `df[c]`: raises `KeyError` when the column is absent. -/
def getColumnM (df : DF) (c : String) : M (List Value) :=
  if df.cols.contains c then pureM (colVals df c) else throwM (Err.keyError c)

/-- `df[[c1, c2, ...]]`: column selection, `KeyError` on a missing name. -/
def selectColsM (df : DF) (cs : List String) : M DF :=
  match cs.find? (fun c => !df.cols.contains c) with
  | some c => throwM (Err.keyError c)
  | none => pureM ⟨cs, df.rows.map (fun r => cs.map (fun c => cellAt df.cols r c))⟩

/-- External collaborators of analyzer.py (modules not under analysis) and
ambient run data; every fallible call is a parameter returning `Except`.
`base_output_dir` stands for `utils.get_output_dir(data_path)` and
`timestamp` for `pd.Timestamp.now()`.  `preprocess_data` returns the
data frame component used afterwards; the spec-limit values it also
returns are consumed only by the renderers and are left inside the
collaborators. -/
structure Env where
  base_output_dir : String
  timestamp : String
  readExcel : Except Err DF
  clean_data : DF → Except Err DF
  get_data_columns : DF → Except Err (List String)
  preprocess_data : DF → Except Err DF
  export_statistics_to_excel : DF → Bool → Except Err Unit
  plot_distributions : DF → Except Err Unit
  plot_single_distribution : DF → String → Except Err Unit
  plot_boxplots : DF → Except Err Unit
  plot_correlations : DF → Except Err Unit
  plot_group_boxplots : DF → String → Except Err Unit
  plot_all_columns_by_group : DF → String → Except Err Unit

/-- `config.DATA_PROCESSING['group_analysis']` and the `config.PLOT` flags
(after their `.get(..., default)` resolution). -/
structure Config where
  group_enabled : Bool
  group_by : Option String
  enable_distribution : Bool
  enable_boxplot : Bool
  enable_correlation : Bool
  enable_group_boxplot : Bool
  enable_all_columns_compare : Bool

/-- Python truthiness test `group_by and group_by in df.columns`
(analyzer.py line 138): `None` and the empty string are falsy. -/
def truthyIn (gb : Option String) (cols : List String) : Bool :=
  match gb with
  | none => false
  | some g => !(g == "") && cols.contains g

/-- `create_output_dirs` (analyzer.py lines 18-42). -/
def create_output_dirs (env : Env) : M (String × String) :=
  let out := env.base_output_dir ++ "_" ++ env.timestamp
  let sdd := out ++ "/single_distributions"
  bindM (mkdir out) (fun _ =>
  bindM (mkdir sdd) (fun _ =>
  pureM (out, sdd)))

/-- `generate_plots` (analyzer.py lines 44-72); figure saving goes to the
already-created directories and is part of the renderer collaborators. -/
def generate_plots (env : Env) (cfg : Config) (df : DF) (data_columns : List String)
    (data_df : DF) (is_group : Bool) : M Unit :=
  bindM (liftE (env.export_statistics_to_excel df is_group)) (fun _ =>
  bindM (if cfg.enable_distribution then
           bindM (liftE (env.plot_distributions df)) (fun _ =>
           forEach data_columns (fun c => liftE (env.plot_single_distribution data_df c)))
         else pureM ()) (fun _ =>
  bindM (if cfg.enable_boxplot then liftE (env.plot_boxplots df) else pureM ()) (fun _ =>
  if cfg.enable_correlation then liftE (env.plot_correlations df) else pureM ())))

/-- The body of `if group_by and group_by in df.columns:`
(analyzer.py lines 139-214). -/
def groupBranch (env : Env) (cfg : Config) (df : DF) (gb : String)
    (output_dir : String) (data_columns : List String) : M Unit :=
  bindM (getColumnM df "SN") (fun _ =>
  let gs := groups df gb
  bindM (if cfg.enable_distribution then
           forEach gs (fun g =>
             let gd := group_data df gb g
             let god := output_dir ++ "/" ++ gb ++ "_" ++ g.toName
             bindM (mkdir god) (fun _ =>
             bindM (mkdir (god ++ "/single_distributions")) (fun _ =>
             bindM (liftE (env.preprocess_data gd)) (fun ddf =>
             generate_plots env cfg gd data_columns ddf true))))
         else pureM ()) (fun _ =>
  bindM (if cfg.enable_group_boxplot then
           forEach gs (fun g =>
             let gd := group_data df gb g
             let god := output_dir ++ "/" ++ gb ++ "_" ++ g.toName
             bindM (mkdir god) (fun _ =>
             bindM (liftE (env.preprocess_data gd)) (fun _ =>
             liftE (env.plot_boxplots gd))))
         else pureM ()) (fun _ =>
  bindM (if cfg.enable_group_boxplot then
           bindM (mkdir (output_dir ++ "/" ++ gb ++ "_comparison")) (fun _ =>
           forEach data_columns (fun c =>
             bindM (selectColsM df ["SN", gb, c]) (fun sub =>
             liftE (env.plot_group_boxplots sub gb))))
         else pureM ()) (fun _ =>
  if cfg.enable_all_columns_compare then
    bindM (mkdir (output_dir ++ "/" ++ gb ++ "_comparison")) (fun _ =>
    liftE (env.plot_all_columns_by_group df gb))
  else pureM ()))))

/-- analyzer.py lines 112-220, after the invalid-value check. -/
def afterCheck (env : Env) (cfg : Config) (df0 : DF) : M String :=
  bindM (liftE (env.clean_data df0)) (fun df =>
  bindM (create_output_dirs env) (fun dirPair =>
  bindM (liftE (env.get_data_columns df)) (fun data_columns =>
  bindM (liftE (env.preprocess_data df)) (fun ddf =>
  bindM (generate_plots env cfg df data_columns ddf false) (fun _ =>
  bindM (if cfg.group_enabled then
           if truthyIn cfg.group_by df.cols then
             groupBranch env cfg df (cfg.group_by.getD "") dirPair.1 data_columns
           else emit (LogEntry.warnGroupMissing cfg.group_by)
         else pureM ()) (fun _ =>
  pureM dirPair.1))))))

/-- The protected region of `analyze_data` (lines 87-220): load, check,
clean, report. -/
def analyzeBody (env : Env) (cfg : Config) : M String :=
  bindM (liftE env.readExcel) (fun df0 =>
  bindM (emitAll (checkInvalid df0)) (fun _ =>
  afterCheck env cfg df0))

/-- The `finally` block (lines 225-228): `plt.ion()`. -/
def restorePlot : M Unit := setInteractive true

/-- `analyze_data` (analyzer.py lines 74-228): `plt.ioff()`, then the
pipeline inside `try ... finally plt.ion()`. -/
def analyze_data (env : Env) (cfg : Config) : M String := fun st =>
  tryFinallyM (analyzeBody env cfg) restorePlot { st with interactive := false }

/-- Environment whose collaborators all succeed: the loader returns `d0`,
cleaning is the identity, the data columns are all columns, preprocessing
returns its input, every renderer succeeds. -/
def okEnv (d0 : DF) : Env :=
  { base_output_dir := "out"
    timestamp := "ts"
    readExcel := Except.ok d0
    clean_data := fun d => Except.ok d
    get_data_columns := fun d => Except.ok d.cols
    preprocess_data := fun d => Except.ok d
    export_statistics_to_excel := fun _ _ => Except.ok ()
    plot_distributions := fun _ => Except.ok ()
    plot_single_distribution := fun _ _ => Except.ok ()
    plot_boxplots := fun _ => Except.ok ()
    plot_correlations := fun _ => Except.ok ()
    plot_group_boxplots := fun _ _ => Except.ok ()
    plot_all_columns_by_group := fun _ _ => Except.ok () }

/-- All reports enabled, grouping on `Batch`. -/
def cfgG : Config :=
  ⟨true, some "Batch", true, true, true, true, true⟩

/-- All reports enabled, grouping on a column that does not exist. -/
def cfgBad : Config :=
  ⟨true, some "Missing", true, true, true, true, true⟩

/-- Initial run state: interactive plotting on, nothing created or logged. -/
def st0 : RunState := ⟨true, [], []⟩

/-- Example frame of the specification's grouping scenario: data rows with
`Batch` values `[A, A, B]` plus one LSL and one USL row. -/
def exB : DF :=
  ⟨["SN", "Width", "Batch"],
   [[Value.s "LSL", Value.i 1, Value.nan],
    [Value.s "USL", Value.i 9, Value.nan],
    [Value.s "P1", Value.i 3, Value.s "A"],
    [Value.s "P2", Value.i 4, Value.s "A"],
    [Value.s "P3", Value.i 5, Value.s "B"]]⟩

/-- Frame with a data row whose group value is missing (NaN). -/
def exNaN : DF :=
  ⟨["SN", "Batch"],
   [[Value.s "LSL", Value.nan],
    [Value.s "P1", Value.s "A"],
    [Value.s "P2", Value.nan]]⟩

/-- Frame with two LSL rows (ambiguous spec rows). -/
def exDup : DF :=
  ⟨["SN", "Width", "Batch"],
   [[Value.s "LSL", Value.i 1, Value.nan],
    [Value.s "LSL", Value.i 2, Value.nan],
    [Value.s "USL", Value.i 9, Value.nan],
    [Value.s "P1", Value.i 3, Value.s "A"]]⟩

/-- Frame with an invalid (NaN) measurement in numeric column `Width`. -/
def exInv : DF :=
  ⟨["SN", "Width"],
   [[Value.s "LSL", Value.i 1],
    [Value.s "P1", Value.nan],
    [Value.s "P2", Value.i 3]]⟩

/-- Frame with a group column but no `SN` column. -/
def exNoSN : DF :=
  ⟨["Serial", "Width", "Batch"],
   [[Value.s "P1", Value.i 3, Value.s "A"]]⟩

theorem uniqueAux_mem (v : Value) :
    ∀ (seen vs : List Value), v ∈ uniqueAux seen vs ↔ v ∈ vs ∧ v ∉ seen := by
  intro seen vs
  induction vs generalizing seen with
  | nil => simp [uniqueAux]
  | cons w ws ih =>
    by_cases hw : w ∈ seen
    · rw [uniqueAux, if_pos hw, ih]
      constructor
      · rintro ⟨h1, h2⟩
        exact ⟨List.mem_cons_of_mem _ h1, h2⟩
      · rintro ⟨h1, h2⟩
        rcases List.mem_cons.mp h1 with h | h
        · exact absurd (h ▸ hw) h2
        · exact ⟨h, h2⟩
    · rw [uniqueAux, if_neg hw]
      constructor
      · intro h
        rcases List.mem_cons.mp h with h | h
        · exact ⟨h ▸ List.mem_cons_self _ _, h ▸ hw⟩
        · rcases (ih (w :: seen)).mp h with ⟨h1, h2⟩
          refine ⟨List.mem_cons_of_mem _ h1, fun hc => h2 (List.mem_cons_of_mem _ hc)⟩
      · rintro ⟨h1, h2⟩
        rcases List.mem_cons.mp h1 with h | h
        · exact h ▸ List.mem_cons_self _ _
        · by_cases hvw : v = w
          · exact hvw ▸ List.mem_cons_self _ _
          · refine List.mem_cons_of_mem _ ((ih (w :: seen)).mpr ⟨h, ?_⟩)
            intro hc
            rcases List.mem_cons.mp hc with hc | hc
            · exact hvw hc
            · exact h2 hc

theorem uniqueAux_nodup : ∀ (seen vs : List Value), (uniqueAux seen vs).Nodup := by
  intro seen vs
  induction vs generalizing seen with
  | nil => simp [uniqueAux]
  | cons w ws ih =>
    by_cases hw : w ∈ seen
    · rw [uniqueAux, if_pos hw]; exact ih seen
    · rw [uniqueAux, if_neg hw]
      refine List.nodup_cons.mpr ⟨?_, ih (w :: seen)⟩
      intro hc
      exact ((uniqueAux_mem w (w :: seen) ws).mp hc).2 (List.mem_cons_self _ _)

theorem uniqueAux_sublist : ∀ (seen vs : List Value), List.Sublist (uniqueAux seen vs) vs := by
  intro seen vs
  induction vs generalizing seen with
  | nil => simp [uniqueAux]
  | cons w ws ih =>
    by_cases hw : w ∈ seen
    · rw [uniqueAux, if_pos hw]; exact (ih seen).cons w
    · rw [uniqueAux, if_neg hw]; exact (ih (w :: seen)).cons₂ w

theorem uniqueAux_congr :
    ∀ (s1 s2 vs : List Value), (∀ x, x ∈ s1 ↔ x ∈ s2) → uniqueAux s1 vs = uniqueAux s2 vs := by
  intro s1 s2 vs
  induction vs generalizing s1 s2 with
  | nil => intro _; rfl
  | cons w ws ih =>
    intro h
    by_cases hw : w ∈ s1
    · rw [uniqueAux, if_pos hw, uniqueAux, if_pos ((h w).mp hw)]
      exact ih s1 s2 h
    · rw [uniqueAux, if_neg hw, uniqueAux, if_neg (fun hc => hw ((h w).mpr hc))]
      refine congrArg (w :: ·) (ih (w :: s1) (w :: s2) ?_)
      intro x
      simp only [List.mem_cons]
      exact or_congr Iff.rfl (h x)

theorem uniqueAux_filter_notmem (a : Value) :
    ∀ (seen vs : List Value),
      uniqueAux (a :: seen) vs = uniqueAux seen (vs.filter (fun w => !(w == a))) := by
  intro seen vs
  induction vs generalizing seen with
  | nil => rfl
  | cons w ws ih =>
    by_cases hwa : w = a
    · subst hwa
      rw [uniqueAux, if_pos (List.mem_cons_self _ _)]
      have hf : ((w :: ws).filter (fun v => !(v == w))) = ws.filter (fun v => !(v == w)) := by
        simp [List.filter_cons]
      rw [hf]
      exact ih seen
    · rw [List.filter_cons]
      have hba : (!(w == a)) = true := by
        simp [hwa]
      rw [if_pos hba]
      by_cases hw : w ∈ seen
      · rw [uniqueAux, if_pos (List.mem_cons_of_mem _ hw), uniqueAux, if_pos hw]
        exact ih seen
      · have hw2 : w ∉ a :: seen := by
          intro hc
          rcases List.mem_cons.mp hc with hc | hc
          · exact hwa hc
          · exact hw hc
        rw [uniqueAux, if_neg hw2, uniqueAux, if_neg hw]
        refine congrArg (w :: ·) ?_
        calc uniqueAux (w :: a :: seen) ws
            = uniqueAux (a :: w :: seen) ws := by
              refine uniqueAux_congr _ _ _ ?_
              intro x
              simp only [List.mem_cons]
              tauto
          _ = uniqueAux (w :: seen) (ws.filter (fun v => !(v == a))) := ih (w :: seen)

theorem unique_mem (v : Value) (vs : List Value) : v ∈ unique vs ↔ v ∈ vs := by
  rw [unique, uniqueAux_mem]
  simp

theorem unique_nodup (vs : List Value) : (unique vs).Nodup := uniqueAux_nodup [] vs

theorem unique_sublist (vs : List Value) : List.Sublist (unique vs) vs := uniqueAux_sublist [] vs

theorem unique_cons (v : Value) (vs : List Value) :
    unique (v :: vs) = v :: unique (vs.filter (fun w => !(w == v))) := by
  rw [unique, uniqueAux, if_neg (List.not_mem_nil v)]
  exact congrArg (v :: ·) (uniqueAux_filter_notmem v [] vs)

theorem pdEq_eq_true {v w : Value} (h : pdEq v w = true) : v = w := by
  rw [pdEq] at h
  by_cases hn : (v.isNaN || w.isNaN) = true
  · rw [if_pos hn] at h
    exact absurd h (by simp)
  · rw [if_neg hn] at h
    exact eq_of_beq h

theorem pdEq_not_nan_left {v w : Value} (h : pdEq v w = true) : v.isNaN = false := by
  rw [pdEq] at h
  by_cases hn : (v.isNaN || w.isNaN) = true
  · rw [if_pos hn] at h
    exact absurd h (by simp)
  · simp only [Bool.or_eq_true, not_or, Bool.not_eq_true] at hn
    exact hn.1

theorem pdEq_nan_right (v : Value) : pdEq v Value.nan = false := by
  rw [pdEq]
  simp [Value.isNaN]

theorem pdEq_of_not_nan {v w : Value} (hv : v.isNaN = false) (hw : w.isNaN = false) :
    pdEq v w = (v == w) := by
  rw [pdEq, hv, hw]
  simp

theorem flatMap_congr_mem {α β : Type} :
    ∀ (l : List α) (f g : α → List β), (∀ x ∈ l, f x = g x) → l.flatMap f = l.flatMap g := by
  intro l f g h
  induction l with
  | nil => rfl
  | cons x xs ih =>
    rw [List.flatMap_cons, List.flatMap_cons, h x (List.mem_cons_self _ _),
      ih (fun y hy => h y (List.mem_cons_of_mem _ hy))]

/-- Distinct keys covering every element of `l` split `l` into a
permutation of itself: filtering `l` by each key in turn and
concatenating loses nothing and duplicates nothing. -/
theorem flatMap_filter_perm {β : Type} (key : β → Value) :
    ∀ (ks : List Value) (l : List β), ks.Nodup → (∀ r ∈ l, key r ∈ ks) →
      List.Perm (ks.flatMap (fun g => l.filter (fun r => key r == g))) l := by
  intro ks
  induction ks with
  | nil =>
    intro l _ h
    cases l with
    | nil => simp
    | cons r rs => exact absurd (h r (List.mem_cons_self _ _)) (List.not_mem_nil _)
  | cons g ks ih =>
    intro l hnd h
    have hgks : g ∉ ks := (List.nodup_cons.mp hnd).1
    rw [List.flatMap_cons]
    have hstep : ks.flatMap (fun g2 => l.filter (fun r => key r == g2))
        = ks.flatMap (fun g2 => (l.filter (fun r => !(key r == g))).filter (fun r => key r == g2)) := by
      refine flatMap_congr_mem ks _ _ ?_
      intro g2 hg2
      have hne : g2 ≠ g := fun hc => hgks (hc ▸ hg2)
      rw [List.filter_filter]
      refine (List.filter_congr ?_).symm
      intro r _
      by_cases hk : key r = g2
      · have h1 : (key r == g2) = true := beq_iff_eq.mpr hk
        have h2 : (key r == g) = false := by
          refine beq_eq_false_iff_ne.mpr ?_
          rw [hk]
          exact hne
        rw [h1, h2]
        rfl
      · have h1 : (key r == g2) = false := beq_eq_false_iff_ne.mpr hk
        rw [h1]
        simp
    rw [hstep]
    have hcov : ∀ r ∈ l.filter (fun r => !(key r == g)), key r ∈ ks := by
      intro r hr
      rcases List.mem_filter.mp hr with ⟨hrl, hrne⟩
      rcases List.mem_cons.mp (h r hrl) with hc | hc
      · rw [hc] at hrne
        simp at hrne
      · exact hc
    have hperm := ih (l.filter (fun r => !(key r == g))) (List.nodup_cons.mp hnd).2 hcov
    exact List.Perm.trans (List.Perm.append_left _ hperm) (List.filter_append_perm _ l)

theorem count_filter_formula {α : Type} [BEq α] [LawfulBEq α] (p : α → Bool) (r : α) :
    ∀ l : List α, (l.filter p).count r = if p r then l.count r else 0 := by
  intro l
  induction l with
  | nil => simp
  | cons x xs ih =>
    rw [List.filter_cons]
    rcases Bool.eq_false_or_eq_true (p x) with hx | hx
    · rw [if_pos hx]
      by_cases hxr : x = r
      · subst hxr
        rw [List.count_cons_self, ih]
        simp [hx, List.count_cons_self]
      · rw [List.count_cons_of_ne (fun hc => hxr hc.symm), ih,
          List.count_cons_of_ne (fun hc => hxr hc.symm)]
    · rw [if_neg (by simp [hx]), ih]
      by_cases hxr : x = r
      · subst hxr
        rw [hx]
        simp
      · rw [List.count_cons_of_ne (fun hc => hxr hc.symm)]

theorem forEach_ok {α : Type} (xs : List α) (f : α → M Unit)
    (hf : ∀ x st, f x st = (Except.ok (), st)) :
    ∀ st, forEach xs f st = (Except.ok (), st) := by
  induction xs with
  | nil => intro st; rfl
  | cons x xs ih =>
    intro st
    rw [forEach, bindM]
    simp only [hf x st]
    exact ih st

theorem generate_plots_okEnv (d0 : DF) (cfg : Config) (df : DF) (dc : List String)
    (ddf : DF) (b : Bool) (st : RunState) :
    generate_plots (okEnv d0) cfg df dc ddf b st = (Except.ok (), st) := by
  rw [generate_plots]
  cases cfg.enable_distribution <;> cases cfg.enable_boxplot <;> cases cfg.enable_correlation <;>
    simp [bindM, liftE, pureM, okEnv,
      forEach_ok dc (fun c => liftE (Except.ok ())) (fun x st2 => rfl)]

/-- A computation whose every execution only appends to the log. -/
def LogMono {α : Type} (m : M α) : Prop :=
  ∀ st, ∃ t, (m st).2.log = st.log ++ t

theorem logMono_pureM {α : Type} (a : α) : LogMono (pureM a) :=
  fun st => ⟨[], by simp [pureM]⟩

theorem logMono_liftE {α : Type} (x : Except Err α) : LogMono (liftE x) :=
  fun st => ⟨[], by simp [liftE]⟩

theorem logMono_throwM {α : Type} (e : Err) : LogMono (throwM e : M α) :=
  fun st => ⟨[], by simp [throwM]⟩

theorem logMono_emitAll (es : List LogEntry) : LogMono (emitAll es) :=
  fun st => ⟨es, by simp [emitAll]⟩

theorem logMono_emit (e : LogEntry) : LogMono (emit e) := logMono_emitAll [e]

theorem logMono_mkdir (d : String) : LogMono (mkdir d) :=
  fun st => ⟨[], by simp [mkdir]⟩

theorem logMono_bindM {α β : Type} {m : M α} {f : α → M β}
    (hm : LogMono m) (hf : ∀ a, LogMono (f a)) : LogMono (bindM m f) := by
  intro st
  rcases hm st with ⟨t1, ht1⟩
  rw [bindM]
  cases hms : m st with
  | mk r st2 =>
    rw [hms] at ht1
    cases r with
    | ok a =>
      rcases hf a st2 with ⟨t2, ht2⟩
      have ht1b : st2.log = st.log ++ t1 := ht1
      exact ⟨t1 ++ t2, by rw [ht2, ht1b, List.append_assoc]⟩
    | error e => exact ⟨t1, ht1⟩

theorem logMono_forEach {α : Type} (xs : List α) (f : α → M Unit)
    (hf : ∀ x, LogMono (f x)) : LogMono (forEach xs f) := by
  induction xs with
  | nil => exact logMono_pureM ()
  | cons x xs ih => exact logMono_bindM (hf x) (fun _ => ih)

theorem logMono_getColumnM (df : DF) (c : String) : LogMono (getColumnM df c) := by
  rw [getColumnM]
  by_cases h : df.cols.contains c
  · rw [if_pos h]; exact logMono_pureM _
  · rw [if_neg h]; exact logMono_throwM _

theorem logMono_selectColsM (df : DF) (cs : List String) : LogMono (selectColsM df cs) := by
  rw [selectColsM]
  cases cs.find? (fun c => !df.cols.contains c) with
  | some c => exact logMono_throwM _
  | none => exact logMono_pureM _

theorem logMono_create_output_dirs (env : Env) : LogMono (create_output_dirs env) := by
  rw [create_output_dirs]
  exact logMono_bindM (logMono_mkdir _) (fun _ =>
    logMono_bindM (logMono_mkdir _) (fun _ => logMono_pureM _))

theorem logMono_generate_plots (env : Env) (cfg : Config) (df : DF) (dc : List String)
    (ddf : DF) (b : Bool) : LogMono (generate_plots env cfg df dc ddf b) := by
  rw [generate_plots]
  refine logMono_bindM (logMono_liftE _) (fun _ => ?_)
  refine logMono_bindM ?_ (fun _ => ?_)
  · by_cases h : cfg.enable_distribution = true
    · rw [if_pos h]
      exact logMono_bindM (logMono_liftE _) (fun _ =>
        logMono_forEach dc _ (fun c => logMono_liftE _))
    · rw [if_neg h]; exact logMono_pureM _
  refine logMono_bindM ?_ (fun _ => ?_)
  · by_cases h : cfg.enable_boxplot = true
    · rw [if_pos h]; exact logMono_liftE _
    · rw [if_neg h]; exact logMono_pureM _
  by_cases h : cfg.enable_correlation = true
  · rw [if_pos h]; exact logMono_liftE _
  · rw [if_neg h]; exact logMono_pureM _

theorem logMono_groupBranch (env : Env) (cfg : Config) (df : DF) (gb : String)
    (od : String) (dc : List String) : LogMono (groupBranch env cfg df gb od dc) := by
  rw [groupBranch]
  refine logMono_bindM (logMono_getColumnM _ _) (fun _ => ?_)
  refine logMono_bindM ?_ (fun _ => ?_)
  · by_cases h : cfg.enable_distribution = true
    · rw [if_pos h]
      refine logMono_forEach _ _ (fun g => ?_)
      exact logMono_bindM (logMono_mkdir _) (fun _ =>
        logMono_bindM (logMono_mkdir _) (fun _ =>
        logMono_bindM (logMono_liftE _) (fun _ => logMono_generate_plots _ _ _ _ _ _)))
    · rw [if_neg h]; exact logMono_pureM _
  refine logMono_bindM ?_ (fun _ => ?_)
  · by_cases h : cfg.enable_group_boxplot = true
    · rw [if_pos h]
      refine logMono_forEach _ _ (fun g => ?_)
      exact logMono_bindM (logMono_mkdir _) (fun _ =>
        logMono_bindM (logMono_liftE _) (fun _ => logMono_liftE _))
    · rw [if_neg h]; exact logMono_pureM _
  refine logMono_bindM ?_ (fun _ => ?_)
  · by_cases h : cfg.enable_group_boxplot = true
    · rw [if_pos h]
      refine logMono_bindM (logMono_mkdir _) (fun _ => ?_)
      refine logMono_forEach _ _ (fun c => ?_)
      exact logMono_bindM (logMono_selectColsM _ _) (fun _ => logMono_liftE _)
    · rw [if_neg h]; exact logMono_pureM _
  by_cases h : cfg.enable_all_columns_compare = true
  · rw [if_pos h]
    exact logMono_bindM (logMono_mkdir _) (fun _ => logMono_liftE _)
  · rw [if_neg h]; exact logMono_pureM _

theorem logMono_afterCheck (env : Env) (cfg : Config) (df0 : DF) :
    LogMono (afterCheck env cfg df0) := by
  rw [afterCheck]
  refine logMono_bindM (logMono_liftE _) (fun df => ?_)
  refine logMono_bindM (logMono_create_output_dirs _) (fun dirPair => ?_)
  refine logMono_bindM (logMono_liftE _) (fun dc => ?_)
  refine logMono_bindM (logMono_liftE _) (fun ddf => ?_)
  refine logMono_bindM (logMono_generate_plots _ _ _ _ _ _) (fun _ => ?_)
  refine logMono_bindM ?_ (fun _ => logMono_pureM _)
  by_cases h1 : cfg.group_enabled = true
  · rw [if_pos h1]
    by_cases h2 : truthyIn cfg.group_by df.cols = true
    · rw [if_pos h2]; exact logMono_groupBranch _ _ _ _ _ _
    · rw [if_neg h2]; exact logMono_emit _
  · rw [if_neg h1]; exact logMono_pureM _

theorem okEnv_read (d0 : DF) : (okEnv d0).readExcel = Except.ok d0 := rfl

theorem okEnv_clean (d0 d : DF) : (okEnv d0).clean_data d = Except.ok d := rfl

theorem okEnv_cols (d0 d : DF) : (okEnv d0).get_data_columns d = Except.ok d.cols := rfl

theorem okEnv_pre (d0 d : DF) : (okEnv d0).preprocess_data d = Except.ok d := rfl

theorem okEnv_base (d0 : DF) : (okEnv d0).base_output_dir = "out" := rfl

theorem okEnv_ts (d0 : DF) : (okEnv d0).timestamp = "ts" := rfl

/-- With no `SN` column, the group branch stops at its first statement,
`df['SN']`, with a `KeyError` and leaves the state untouched. -/
theorem groupBranch_noSN (env : Env) (cfg : Config) (df : DF) (gb od : String)
    (dc : List String) (h : df.cols.contains "SN" = false) (st : RunState) :
    groupBranch env cfg df gb od dc st = (Except.error (Err.keyError "SN"), st) := by
  have h2 : ¬("SN" ∈ df.cols) := by simpa using h
  rw [groupBranch, bindM, getColumnM]
  simp [h2, throwM]

/-- C7: on every exit path of `analyze_data` — whatever the collaborators
return, success or exception at any stage — the final state has interactive
plotting re-enabled, and the body's result (in particular any exception)
still propagates unchanged to the caller after the restoration. -/
theorem c7_interactive_restored (env : Env) (cfg : Config) (st : RunState) :
    ((analyze_data env cfg st).2.interactive = true)
  ∧ (analyze_data env cfg st).1 = (analyzeBody env cfg { st with interactive := false }).1 := by
  simp only [analyze_data, tryFinallyM, restorePlot, setInteractive]
  cases hb : analyzeBody env cfg { st with interactive := false } with
  | mk r st2 => simp [hb]

/-- C1 counterexample: with group analysis enabled on the nonexistent
column `Missing` and all collaborators succeeding, the run completes
successfully (no ConfigurationError, no exception at all) and the base
output directory has been created — contradicting both halves of the
claim. -/
theorem c1_counterexample :
    (analyze_data (okEnv exB) cfgBad st0).1 = Except.ok "out_ts"
  ∧ "out_ts" ∈ (analyze_data (okEnv exB) cfgBad st0).2.dirs := by
  constructor
  · rfl
  · decide

/-- C1 amended: with group analysis enabled and a `group_by` column that is
not a column of the Dataset, the run does not fail: it logs a warning,
performs no grouping (exactly the base output directory and its
`single_distributions` subdirectory are created, no group directory), and
returns the output directory normally. -/
theorem c1_missing_group_warns (d0 : DF) (cfg : Config) (st : RunState) (gb : String)
    (h1 : cfg.group_enabled = true) (h2 : cfg.group_by = some gb)
    (h3 : d0.cols.contains gb = false) :
    (analyze_data (okEnv d0) cfg st).1 = Except.ok "out_ts"
  ∧ (analyze_data (okEnv d0) cfg st).2.dirs
      = st.dirs ++ ["out_ts", "out_ts/single_distributions"]
  ∧ LogEntry.warnGroupMissing (some gb) ∈ (analyze_data (okEnv d0) cfg st).2.log := by
  have ht : truthyIn (some gb) d0.cols = false := by
    rw [truthyIn, h3, Bool.and_false]
  have hs1 : "out" ++ "_" ++ "ts" = "out_ts" := rfl
  have hs2 : "out" ++ "_" ++ "ts" ++ "/single_distributions" = "out_ts/single_distributions" := rfl
  simp only [analyze_data, analyzeBody, afterCheck, tryFinallyM, bindM, liftE, emitAll,
    create_output_dirs, mkdir, pureM, okEnv_read, okEnv_clean, okEnv_cols, okEnv_pre,
    okEnv_base, okEnv_ts, generate_plots_okEnv, h1, h2, ht, if_true, if_false,
    restorePlot, setInteractive, emit, Bool.false_eq_true, hs1, hs2,
    (rfl : "out_ts" ++ "/single_distributions" = "out_ts/single_distributions")]
  exact ⟨trivial, by simp, by simp⟩

theorem c1_missing_group_warns_witness :
    (cfgBad.group_enabled = true ∧ cfgBad.group_by = some "Missing"
      ∧ exB.cols.contains "Missing" = false)
  ∧ ((analyze_data (okEnv exB) cfgBad st0).1 = Except.ok "out_ts"
      ∧ (analyze_data (okEnv exB) cfgBad st0).2.dirs
          = st0.dirs ++ ["out_ts", "out_ts/single_distributions"]
      ∧ LogEntry.warnGroupMissing (some "Missing") ∈ (analyze_data (okEnv exB) cfgBad st0).2.log) :=
  ⟨⟨rfl, rfl, by decide⟩, c1_missing_group_warns exB cfgBad st0 "Missing" rfl rfl (by decide)⟩

/-- C9: with grouping enabled on an existing group column but no column
named `SN`, and the earlier collaborator stages succeeding, the run fails
with `KeyError('SN')` from the hard-coded `df['SN']` lookup — not with a
SchemaError or ConfigurationError. -/
theorem c9_sn_keyerror (d0 : DF) (cfg : Config) (st : RunState) (gb : String)
    (h1 : cfg.group_enabled = true) (h2 : cfg.group_by = some gb)
    (h3 : (gb == "") = false) (h4 : d0.cols.contains gb = true)
    (h5 : d0.cols.contains "SN" = false) :
    (analyze_data (okEnv d0) cfg st).1 = Except.error (Err.keyError "SN") := by
  have ht : truthyIn (some gb) d0.cols = true := by
    rw [truthyIn, h3, h4]
    rfl
  simp only [analyze_data, analyzeBody, afterCheck, tryFinallyM, bindM, liftE, emitAll,
    create_output_dirs, mkdir, pureM, okEnv_read, okEnv_clean, okEnv_cols, okEnv_pre,
    okEnv_base, okEnv_ts, generate_plots_okEnv, h1, h2, ht, if_true, if_false,
    restorePlot, setInteractive, Option.getD, groupBranch_noSN (okEnv d0) cfg d0 gb _ _ h5]

theorem c9_sn_keyerror_witness :
    (cfgG.group_enabled = true ∧ cfgG.group_by = some "Batch"
      ∧ (("Batch" == "") = false) ∧ exNoSN.cols.contains "Batch" = true
      ∧ exNoSN.cols.contains "SN" = false)
  ∧ (analyze_data (okEnv exNoSN) cfgG st0).1 = Except.error (Err.keyError "SN") :=
  ⟨⟨rfl, rfl, by decide, by decide, by decide⟩,
    c9_sn_keyerror exNoSN cfgG st0 "Batch" rfl rfl (by decide) (by decide) (by decide)⟩

/-- C3: the spec mask splits every Dataset into the rows whose `SN` equals
`LSL` or `USL` and the remaining data rows; as multisets these two parts
reassemble exactly the original rows (no loss, no duplication), and every
row lands on the side its identifier dictates — the two sides are disjoint
because membership is decided by `rowIsSpec`. -/
theorem c3_spec_split_partition (df : DF) :
    List.Perm ((spec_data df).rows ++ (actual_data df).rows) df.rows
  ∧ (∀ r : Row, r ∈ (spec_data df).rows ↔ r ∈ df.rows ∧ rowIsSpec df.cols r = true)
  ∧ (∀ r : Row, r ∈ (actual_data df).rows ↔ r ∈ df.rows ∧ rowIsSpec df.cols r = false) := by
  refine ⟨?_, ?_, ?_⟩
  · exact List.filter_append_perm (fun r => rowIsSpec df.cols r) df.rows
  · intro r
    simp [spec_data, List.mem_filter]
  · intro r
    simp [actual_data, List.mem_filter]

/-- C5: every group dataset is exactly the spec rows, unchanged and first,
followed by the data rows whose group-column value equals the group key;
membership is characterized against the original Dataset.  On the
specification's example (`Batch` values `[A, A, B]` plus one LSL and one
USL row) exactly the groups `A` and `B` arise, each group holding both
spec rows, `A` with its two data rows and `B` with its one. -/
theorem c5_group_dataset_content :
    (∀ (df : DF) (gb : String) (g : Value),
      (group_data df gb g).rows
        = (spec_data df).rows
            ++ (actual_data df).rows.filter (fun r => pdEq (cellAt df.cols r gb) g)
      ∧ ∀ r : Row, r ∈ (group_data df gb g).rows ↔
          (r ∈ df.rows ∧ rowIsSpec df.cols r = true)
          ∨ (r ∈ df.rows ∧ rowIsSpec df.cols r = false ∧ pdEq (cellAt df.cols r gb) g = true))
  ∧ groups exB "Batch" = [Value.s "A", Value.s "B"]
  ∧ (group_data exB "Batch" (Value.s "A")).rows
      = [[Value.s "LSL", Value.i 1, Value.nan],
         [Value.s "USL", Value.i 9, Value.nan],
         [Value.s "P1", Value.i 3, Value.s "A"],
         [Value.s "P2", Value.i 4, Value.s "A"]]
  ∧ (group_data exB "Batch" (Value.s "B")).rows
      = [[Value.s "LSL", Value.i 1, Value.nan],
         [Value.s "USL", Value.i 9, Value.nan],
         [Value.s "P3", Value.i 5, Value.s "B"]] := by
  refine ⟨?_, by decide, by decide, by decide⟩
  intro df gb g
  refine ⟨rfl, ?_⟩
  intro r
  rw [group_data]
  simp only [List.mem_append, group_rows, actual_data, spec_data, List.mem_filter]
  constructor
  · rintro (⟨h1, h2⟩ | ⟨⟨h1, h2⟩, h3⟩)
    · exact Or.inl ⟨h1, h2⟩
    · exact Or.inr ⟨h1, by simpa using h2, h3⟩
  · rintro (⟨h1, h2⟩ | ⟨h1, h2, h3⟩)
    · exact Or.inl ⟨h1, h2⟩
    · exact Or.inr ⟨⟨h1, by simp [h2]⟩, h3⟩

/-- C6: the enumeration order of group keys is the first-occurrence order
of the distinct values of the group column among the data rows: `groups`
is a duplicate-free subsequence of that column covering exactly its
values, and the underlying deduplication keeps the first occurrence and
drops the later ones (`unique (v :: vs)` keeps `v` and removes every later
copy of `v` before recursing). -/
theorem c6_first_occurrence_order :
    (∀ (df : DF) (gb : String),
      List.Sublist (groups df gb) (colVals (actual_data df) gb)
      ∧ (groups df gb).Nodup
      ∧ (∀ v : Value, v ∈ groups df gb ↔ v ∈ colVals (actual_data df) gb))
  ∧ (∀ (v : Value) (vs : List Value),
      unique (v :: vs) = v :: unique (vs.filter (fun w => !(w == v)))) := by
  refine ⟨?_, unique_cons⟩
  intro df gb
  exact ⟨unique_sublist _, unique_nodup _, fun v => unique_mem v _⟩

/-- C2 counterexample: in `exNaN` the data row `P2` has a NaN group value;
it is a data row, yet it belongs to no group dataset, so the group
datasets do not cover the data rows — the partition claim fails as stated. -/
theorem c2_counterexample :
    [Value.s "P2", Value.nan] ∈ (actual_data exNaN).rows
  ∧ ∀ g ∈ groups exNaN "Batch", [Value.s "P2", Value.nan] ∉ group_rows exNaN "Batch" g := by
  decide

/-- C2 amended: provided no data row has a missing (NaN) value in the
group column, the group datasets partition the data rows: concatenating
the group rows over all group keys is a permutation of the data rows, and
two distinct keys never share a row. -/
theorem c2_groups_partition (df : DF) (gb : String)
    (h : ∀ r ∈ (actual_data df).rows, (cellAt df.cols r gb).isNaN = false) :
    List.Perm ((groups df gb).flatMap (fun g => group_rows df gb g)) (actual_data df).rows
  ∧ ∀ g1 ∈ groups df gb, ∀ g2 ∈ groups df gb, g1 ≠ g2 →
      ∀ r : Row, r ∈ group_rows df gb g1 → r ∉ group_rows df gb g2 := by
  constructor
  · have hconv : ∀ g ∈ groups df gb,
        group_rows df gb g
          = (actual_data df).rows.filter (fun r => cellAt df.cols r gb == g) := by
      intro g hg
      rw [group_rows]
      refine List.filter_congr ?_
      intro r hr
      have hgmem : g ∈ colVals (actual_data df) gb := (unique_mem g _).mp hg
      rcases List.mem_map.mp hgmem with ⟨r0, hr0, hr0g⟩
      have hgn : g.isNaN = false := by
        rw [← hr0g]
        exact h r0 hr0
      exact pdEq_of_not_nan (h r hr) hgn
    rw [flatMap_congr_mem _ _ _ hconv]
    refine flatMap_filter_perm (fun r => cellAt df.cols r gb) (groups df gb)
      (actual_data df).rows (unique_nodup _) ?_
    intro r hr
    exact (unique_mem _ _).mpr (List.mem_map.mpr ⟨r, hr, rfl⟩)
  · intro g1 hg1 g2 hg2 hne r hr1 hr2
    have h1 := (List.mem_filter.mp hr1).2
    have h2 := (List.mem_filter.mp hr2).2
    exact hne ((pdEq_eq_true h1).symm.trans (pdEq_eq_true h2))

theorem c2_groups_partition_witness :
    (∀ r ∈ (actual_data exB).rows, (cellAt exB.cols r "Batch").isNaN = false)
  ∧ (List.Perm ((groups exB "Batch").flatMap (fun g => group_rows exB "Batch" g))
       (actual_data exB).rows
     ∧ ∀ g1 ∈ groups exB "Batch", ∀ g2 ∈ groups exB "Batch", g1 ≠ g2 →
        ∀ r : Row, r ∈ group_rows exB "Batch" g1 → r ∉ group_rows exB "Batch" g2) :=
  ⟨by decide, c2_groups_partition exB "Batch" (by decide)⟩

/-- C10: when some data row has a NaN group value, NaN is itself
enumerated as a group key, its group dataset consists of the spec rows and
zero data rows, and NaN-valued data rows belong to no group dataset at
all (equality comparison against NaN selects nothing). -/
theorem c10_nan_group (df : DF) (gb : String)
    (h : Value.nan ∈ colVals (actual_data df) gb) :
    Value.nan ∈ groups df gb
  ∧ group_rows df gb Value.nan = []
  ∧ (group_data df gb Value.nan).rows = (spec_data df).rows
  ∧ (∀ r ∈ (actual_data df).rows, (cellAt df.cols r gb).isNaN = true →
      ∀ g ∈ groups df gb, r ∉ group_rows df gb g) := by
  have hempty : group_rows df gb Value.nan = [] := by
    rw [group_rows]
    rw [List.filter_eq_nil_iff]
    intro r _
    simp [pdEq_nan_right]
  refine ⟨(unique_mem _ _).mpr h, hempty, ?_, ?_⟩
  · show (spec_data df).rows ++ group_rows df gb Value.nan = (spec_data df).rows
    rw [hempty, List.append_nil]
  · intro r _ hnan g _ hmem
    have hp := (List.mem_filter.mp hmem).2
    have := pdEq_not_nan_left hp
    rw [hnan] at this
    exact Bool.true_eq_false.mp this

theorem c10_nan_group_witness :
    (Value.nan ∈ colVals (actual_data exNaN) "Batch")
  ∧ (Value.nan ∈ groups exNaN "Batch"
     ∧ group_rows exNaN "Batch" Value.nan = []
     ∧ (group_data exNaN "Batch" Value.nan).rows = (spec_data exNaN).rows
     ∧ (∀ r ∈ (actual_data exNaN).rows, (cellAt exNaN.cols r "Batch").isNaN = true →
         ∀ g ∈ groups exNaN "Batch", r ∉ group_rows exNaN "Batch" g)) :=
  ⟨by decide, c10_nan_group exNaN "Batch" (by decide)⟩

theorem mem_invalidEntries (d : DF) (c : String) (n : Nat) :
    LogEntry.invalidValues c n ∈ invalidEntries d ↔
      c ∈ numericColumns d ∧ n = invalidCount d c ∧ 0 < n := by
  rw [invalidEntries, List.mem_filterMap]
  constructor
  · rintro ⟨c2, hc2, heq⟩
    by_cases hp : 0 < invalidCount d c2
    · rw [if_pos hp] at heq
      have heq2 := Option.some.inj heq
      injection heq2 with hc hn
      subst hc
      exact ⟨hc2, hn.symm, hn ▸ hp⟩
    · rw [if_neg hp] at heq
      exact Option.noConfusion heq
  · rintro ⟨hc, hn, hpos⟩
    refine ⟨c, hc, ?_⟩
    rw [if_pos (by rw [← hn]; exact hpos), hn]

theorem noInvalid_not_mem_invalidEntries (d : DF) :
    LogEntry.noInvalid ∉ invalidEntries d := by
  rw [invalidEntries, List.mem_filterMap]
  rintro ⟨c, hc, heq⟩
  by_cases hp : 0 < invalidCount d c
  · rw [if_pos hp] at heq
    exact LogEntry.noConfusion (Option.some.inj heq)
  · rw [if_neg hp] at heq
    exact Option.noConfusion heq

/-- C8: once the Dataset is loaded — whatever the collaborators and the
rest of the run do afterwards — the log continues with exactly the
invalid-value diagnostics computed from the just-loaded, not-yet-cleaned
frame: an entry per numeric column holding non-finite values with their
count, and the no-invalid message precisely when every numeric column is
all-finite. -/
theorem c8_invalid_report (d0 : DF) (env : Env) (cfg : Config) (st : RunState)
    (hread : env.readExcel = Except.ok d0) :
    (∃ t, (analyze_data env cfg st).2.log = st.log ++ checkInvalid d0 ++ t)
  ∧ (∀ (c : String) (n : Nat),
      LogEntry.invalidValues c n ∈ checkInvalid d0 ↔
        c ∈ numericColumns d0 ∧ n = invalidCount d0 c ∧ 0 < n)
  ∧ (LogEntry.noInvalid ∈ checkInvalid d0 ↔
      ∀ c ∈ numericColumns d0, invalidCount d0 c = 0) := by
  refine ⟨?_, ?_, ?_⟩
  · rcases logMono_afterCheck env cfg d0
        ⟨false, st.dirs, st.log ++ checkInvalid d0⟩ with ⟨t, ht⟩
    refine ⟨t, ?_⟩
    simp only [analyze_data, tryFinallyM, analyzeBody, bindM, liftE, hread, emitAll,
      restorePlot, setInteractive]
    exact ht
  · intro c n
    rw [checkInvalid]
    by_cases he : (invalidEntries d0).isEmpty = true
    · rw [if_pos he]
      constructor
      · intro hmem
        exact LogEntry.noConfusion (List.mem_singleton.mp hmem)
      · rintro ⟨hc, hn, hpos⟩
        exfalso
        have hmem : LogEntry.invalidValues c (invalidCount d0 c) ∈ invalidEntries d0 :=
          (mem_invalidEntries d0 c _).mpr ⟨hc, rfl, by rw [← hn]; exact hpos⟩
        rw [List.isEmpty_iff.mp he] at hmem
        exact List.not_mem_nil _ hmem
    · rw [if_neg he]
      exact mem_invalidEntries d0 c n
  · rw [checkInvalid]
    by_cases he : (invalidEntries d0).isEmpty = true
    · rw [if_pos he]
      constructor
      · intro _ c hc
        by_contra hne
        have hmem : LogEntry.invalidValues c (invalidCount d0 c) ∈ invalidEntries d0 :=
          (mem_invalidEntries d0 c _).mpr ⟨hc, rfl, Nat.pos_of_ne_zero hne⟩
        rw [List.isEmpty_iff.mp he] at hmem
        exact List.not_mem_nil _ hmem
      · intro _
        exact List.mem_singleton.mpr rfl
    · rw [if_neg he]
      constructor
      · intro hmem
        exact absurd hmem (noInvalid_not_mem_invalidEntries d0)
      · intro hall
        exfalso
        apply he
        rw [List.isEmpty_iff, invalidEntries, List.filterMap_eq_nil_iff]
        intro c hc
        rw [if_neg (by simp [hall c hc])]

theorem c8_invalid_report_witness :
    ((okEnv exInv).readExcel = Except.ok exInv)
  ∧ ((∃ t, (analyze_data (okEnv exInv) cfgG st0).2.log = st0.log ++ checkInvalid exInv ++ t)
     ∧ (∀ (c : String) (n : Nat),
         LogEntry.invalidValues c n ∈ checkInvalid exInv ↔
           c ∈ numericColumns exInv ∧ n = invalidCount exInv c ∧ 0 < n)
     ∧ (LogEntry.noInvalid ∈ checkInvalid exInv ↔
         ∀ c ∈ numericColumns exInv, invalidCount exInv c = 0)) :=
  ⟨rfl, c8_invalid_report exInv (okEnv exInv) cfgG st0 rfl⟩

/-- C4 counterexample: `exDup` contains two LSL rows, yet the run — spec
extraction included — completes successfully: no configuration error (nor
any other rejection) is raised on ambiguous spec rows. -/
theorem c4_counterexample :
    ((exDup.rows.filter (fun r => cellAt exDup.cols r "SN" == Value.s "LSL")).length = 2)
  ∧ (analyze_data (okEnv exDup) cfgG st0).1 = Except.ok "out_ts" := by
  constructor
  · decide
  · rfl

/-- C4 amended: spec-row extraction does not reject duplicate LSL/USL
rows; every row whose identifier matches is kept in the spec subset with
its full multiplicity (count formula over an arbitrary Dataset), as the
concrete frame with two LSL rows shows — and its run completes without
any error. -/
theorem c4_duplicate_specs_kept :
    (∀ (df : DF) (r : Row),
      (spec_data df).rows.count r
        = if rowIsSpec df.cols r then df.rows.count r else 0)
  ∧ (spec_data exDup).rows
      = [[Value.s "LSL", Value.i 1, Value.nan],
         [Value.s "LSL", Value.i 2, Value.nan],
         [Value.s "USL", Value.i 9, Value.nan]]
  ∧ (analyze_data (okEnv exDup) cfgG st0).1 = Except.ok "out_ts" := by
  refine ⟨?_, by decide, rfl⟩
  intro df r
  exact count_filter_formula (fun r2 => rowIsSpec df.cols r2) r df.rows
